import Mathlib

/-!
Verification of the location-code resolution and responsible-party pipeline
(`location_codes_finder.py`, `main_logic.py`, `matrix_mapping.py`).

Python strings are modelled as lists of character codes (`List Nat`); `none`
models Python `None` / pandas `NaN` cells.  All definitions are translated
from the source files; each definition's doc comment names the Python
function or code block it embeds.
-/

/-- A Python string, as the list of its character codes (ASCII model). -/
abbrev PyStr := List Nat

/-- Converts a Lean string literal into the `PyStr` model. -/
def pstr (s : String) : PyStr := s.data.map Char.toNat

/-- Python `str.upper` on one character code (ASCII). -/
def upperChar (n : Nat) : Nat := if 97 ≤ n ∧ n ≤ 122 then n - 32 else n

/-- Python `str.lower` on one character code (ASCII). -/
def lowerChar (n : Nat) : Nat := if 65 ≤ n ∧ n ≤ 90 then n + 32 else n

/-- Python `str.upper`. -/
def pyUpper (s : PyStr) : PyStr := s.map upperChar

/-- Python `str.lower`. -/
def pyLower (s : PyStr) : PyStr := s.map lowerChar

/-- ASCII whitespace, as recognised by Python `str.strip`, `str.split` and
the regex class `\s`: space, tab, newline, carriage return, vertical tab,
form feed. -/
def isSpaceChar (n : Nat) : Bool := decide (n = 32 ∨ n = 9 ∨ n = 10 ∨ n = 13 ∨ n = 11 ∨ n = 12)

/-- Python `str.strip`: drop whitespace from both ends. -/
def pyStrip (s : PyStr) : PyStr := List.rdropWhile isSpaceChar (List.dropWhile isSpaceChar s)

/-- An ASCII digit `0`-`9`. -/
def isDigitChar (n : Nat) : Bool := decide (48 ≤ n ∧ n ≤ 57)

/-- Python `str.isdigit` (ASCII model): non-empty and all digits.  This also
models `re.fullmatch(r"\d+", s)` from `main_logic._normalize_loc_code`. -/
def pyIsDigit (s : PyStr) : Bool := !s.isEmpty && s.all isDigitChar

/-- Python `str.zfill w`: left-fill with `0` (code 48) up to width `w`;
a leading `+`/`-` sign stays in front of the inserted zeros. -/
def zfill (w : Nat) : PyStr → PyStr
  | [] => List.replicate w 48
  | c :: rest =>
    if w ≤ rest.length + 1 then c :: rest
    else if c = 43 ∨ c = 45 then c :: (List.replicate (w - (rest.length + 1)) 48 ++ rest)
    else List.replicate (w - (rest.length + 1)) 48 ++ (c :: rest)

/-- Plain left-zero-padding to width `w` (no sign handling): the literal
reading of the spec phrase "zero-pad left". -/
def padLeft (w : Nat) (s : PyStr) : PyStr := List.replicate (w - s.length) 48 ++ s

/-- Python slicing `s[-n:]`: the last `n` characters (all of `s` when
`s.length ≤ n`). -/
def lastN (n : Nat) (s : PyStr) : PyStr := s.drop (s.length - n)

/-- Python `needle in hay` substring test (also `str.contains` with a
metacharacter-free pattern). -/
def startsWith : PyStr → PyStr → Bool
  | [], _ => true
  | _ :: _, [] => false
  | c :: w, d :: s => decide (c = d) && startsWith w s

/-- Substring containment: some suffix of `hay` starts with `needle`. -/
def containsSub (needle : PyStr) : PyStr → Bool
  | [] => startsWith needle []
  | c :: rest => startsWith needle (c :: rest) || containsSub needle rest

/-- Python `str.startswith` with a tuple of alternatives. -/
def startsWithAny (s : PyStr) (ps : List PyStr) : Bool := ps.any (fun p => startsWith p s)

/-- Python `str.replace(" ", "")`: remove space characters (code 32) only. -/
def removeSpaces (s : PyStr) : PyStr := s.filter (fun c => decide (c ≠ 32))

/-- Helper for `splitWords`. -/
def splitWordsAux (cur : PyStr) : PyStr → List PyStr
  | [] => if cur = [] then [] else [cur.reverse]
  | c :: rest =>
    if isSpaceChar c then
      if cur = [] then splitWordsAux [] rest else cur.reverse :: splitWordsAux [] rest
    else splitWordsAux (c :: cur) rest

/-- Python `str.split()` with no argument: split on whitespace runs,
dropping empty pieces. -/
def splitWords (s : PyStr) : List PyStr := splitWordsAux [] s

/-- A regex word character `\w` (ASCII model): `[A-Za-z0-9_]`. -/
def isWordChar (n : Nat) : Bool :=
  isDigitChar n || decide (65 ≤ n ∧ n ≤ 90) || decide (97 ≤ n ∧ n ≤ 122) || decide (n = 95)

/-- A `\b` boundary holds before the match: start of string or a
non-word character. -/
def okBefore : Option Nat → Bool
  | none => true
  | some c => !isWordChar c

/-- A `\b` boundary holds after the match: end of string or a
non-word character. -/
def okAfter : PyStr → Bool
  | [] => true
  | c :: _ => !isWordChar c

/-- Scans `s` for an occurrence of `w` delimited by `\b` boundaries;
`prev` is the character just before the current position. -/
def wordScan (w : PyStr) : Option Nat → PyStr → Bool
  | prev, [] => startsWith w [] && okBefore prev
  | prev, c :: rest =>
    (startsWith w (c :: rest) && okBefore prev && okAfter (List.drop w.length (c :: rest))) ||
      wordScan w (some c) rest

/-- `re.search` for the pattern `\bw\b` (whole-word occurrence of `w`). -/
def hasWholeWord (w s : PyStr) : Bool := wordScan w none s

/-- The wipe-rule name test from `main_logic.run_pipeline` (lines 273-278):
the uppercased name contains `CINTAS` or `MAT` as a whole word
(regex `\b(CINTAS|MAT)\b`). -/
def containsCintasMat (name : PyStr) : Bool :=
  hasWholeWord (pstr "CINTAS") (pyUpper name) || hasWholeWord (pstr "MAT") (pyUpper name)

/-- Python `dict` insertion `d[k] = v`: replace the value if the key is
present (keeping its position), else append. -/
def dictInsert {α : Type} (k : PyStr) (v : α) : List (PyStr × α) → List (PyStr × α)
  | [] => [(k, v)]
  | (k1, v1) :: rest => if k1 = k then (k1, v) :: rest else (k1, v1) :: dictInsert k v rest

/-- Python `dict.get(k, None)`. -/
def dictGet {α : Type} : List (PyStr × α) → PyStr → Option α
  | [], _ => none
  | (k1, v) :: rest, k => if k1 = k then some v else dictGet rest k

/-- Python `dict` lookup on a pair key (for the type-pair tables of
`matrix_mapping.py`). -/
def pairGet : List ((PyStr × PyStr) × PyStr) → PyStr × PyStr → Option PyStr
  | [], _ => none
  | (k1, v) :: rest, k => if k1 = k then some v else pairGet rest k

/-- Models pandas `astype(str)` on an optional cell: a missing value (`NaN`)
prints as the string `nan`. -/
def strOf : Option PyStr → PyStr
  | some s => s
  | none => pstr "nan"

/-- First-occurrence deduplication helper. -/
def dedupFirstAux (seen : List PyStr) : List PyStr → List PyStr
  | [] => []
  | x :: rest => if x ∈ seen then dedupFirstAux seen rest else x :: dedupFirstAux (x :: seen) rest

/-- pandas `Series.unique`: deduplicate keeping the first occurrence. -/
def dedupFirst (l : List PyStr) : List PyStr := dedupFirstAux [] l

/-- The body of `format_code_4` after the `strip`/`upper` normalisation. -/
def format4core (s : PyStr) : Option PyStr :=
  if s = [] then none
  else if pyIsDigit s then some (lastN 4 (zfill 4 s))
  else some (zfill 4 s)

/-- `Location_Codes_Finder.format_code_4`: forces any code into a
4-character standardized code.  `None`/blank gives absent; an all-digit
string is zero-filled to 4 and truncated to its last 4 digits; anything
else is zero-filled to 4 without truncation. -/
def format_code_4 : Option PyStr → Option PyStr
  | none => none
  | some code => format4core (pyUpper (pyStrip code))

/-- `Location_Codes_Finder.__init__` construction of `self.codes_list` /
`codes_set_raw`: drop missing entries, stringify, strip, uppercase,
deduplicate. -/
def buildRawCodes (codes : List (Option PyStr)) : List PyStr :=
  dedupFirst ((codes.filterMap id).map (fun c => pyUpper (pyStrip c)))

/-- `Location_Codes_Finder.__init__` construction of `codes_set_4`: the
non-absent `format_code_4` images of the raw code set (membership-only
model of the Python `set`). -/
def buildCodesSet4 (rawSet : List PyStr) : List PyStr :=
  rawSet.filterMap (fun c => format_code_4 (some c))

/-- `Location_Codes_Finder.validate_code_in_list`: return the standardized
4-char form only if allowed, first against the normalized set, then
against the raw set. -/
def validate_code_in_list (rawSet set4 : List PyStr) : Option PyStr → Option PyStr
  | none => none
  | some code =>
    match format_code_4 (some code) with
    | none => none
    | some f =>
      if f ∈ set4 then some f
      else
        if pyUpper (pyStrip code) ∈ rawSet then format_code_4 (some (pyUpper (pyStrip code)))
        else none

/-- `Location_Codes_Finder.combine_addr`: first word of street + first word
of city + state, spaces removed, uppercase; absent when any part is
missing or blank. -/
def combine_addr (street city state : Option PyStr) : Option PyStr :=
  match street, city, state with
  | some street0, some city0, some state0 =>
    let streetS := pyStrip street0
    let cityS := pyStrip city0
    let stateS := pyStrip state0
    if streetS = [] ∨ cityS = [] ∨ stateS = [] then none
    else
      match splitWords streetS, splitWords cityS with
      | sp :: _, cp :: _ => some (pyUpper (removeSpaces (sp ++ cp ++ stateS)))
      | _, _ => none
  | _, _, _ => none

/-- One row of the master location table (`MY LOCATION TABLE`), with the
columns read by `Location_Codes_Finder.__init__`. -/
structure MasterRow where
  locAddress : Option PyStr
  locCity : Option PyStr
  locST : Option PyStr
  locCode : Option PyStr

/-- The `(combined_address, code)` entry a master row contributes to
`address_to_code` (absent keys are skipped; the code column goes through
`astype(str).str.strip().str.upper()`). -/
def rowEntry (r : MasterRow) : Option (PyStr × PyStr) :=
  match combine_addr r.locAddress r.locCity r.locST with
  | none => none
  | some k => if k = [] then none else some (k, pyUpper (pyStrip (strOf r.locCode)))

/-- `Location_Codes_Finder.__init__` construction of `address_to_code`:
a Python `dict` built left to right from the master rows. -/
def buildAddressToCode (rows : List MasterRow) : List (PyStr × PyStr) :=
  rows.foldl
    (fun d r => match rowEntry r with
      | some (k, c) => dictInsert k c d
      | none => d)
    []

/-- `Location_Codes_Finder.extract_from_address`: canonicalise the key,
look it up in `address_to_code`, and standardise the stored code. -/
def extract_from_address (addrIdx : List (PyStr × PyStr)) : Option PyStr → Option PyStr
  | none => none
  | some s =>
    let key := pyStrip (pyUpper (removeSpaces s))
    if key = [] then none
    else format_code_4 (dictGet addrIdx key)

/-- Maximal `[A-Z0-9]+` runs (the first token pass of
`extract_from_text`). -/
def isUpperAlnum (n : Nat) : Bool := decide (65 ≤ n ∧ n ≤ 90) || isDigitChar n

/-- Helper collecting `[A-Z0-9]+` runs. -/
def runsAux (cur : PyStr) : PyStr → List PyStr
  | [] => if cur = [] then [] else [cur.reverse]
  | c :: rest =>
    if isUpperAlnum c then runsAux (c :: cur) rest
    else if cur = [] then runsAux [] rest
    else cur.reverse :: runsAux [] rest

/-- `re.findall(r"[A-Z0-9]+", text)`. -/
def alnumRuns (s : PyStr) : List PyStr := runsAux [] s

/-- An uppercase ASCII letter. -/
def isUpperLetter (n : Nat) : Bool := decide (65 ≤ n ∧ n ≤ 90)

/-- Fuelled helper for `findCodeTokens`. -/
def findCodeTokensAux : Nat → PyStr → List PyStr
  | 0, _ => []
  | _ + 1, [] => []
  | fuel + 1, c :: rest =>
    if isDigitChar c then
      let ds := ((c :: rest).takeWhile isDigitChar).take 4
      let afterDigits := (c :: rest).drop ds.length
      let ls := (afterDigits.takeWhile isUpperLetter).take 2
      (ds ++ ls) :: findCodeTokensAux fuel ((c :: rest).drop (ds.length + ls.length))
    else findCodeTokensAux fuel rest

/-- `re.findall(r"\d{1,4}[A-Z]{0,2}|\d{1,4}", text)`: non-overlapping
left-to-right greedy matches of up to 4 digits followed by up to 2
uppercase letters. -/
def findCodeTokens (s : PyStr) : List PyStr := findCodeTokensAux s.length s

/-- Insertion step for the stable longest-first sort of candidate tokens. -/
def insertByLen (x : PyStr) : List PyStr → List PyStr
  | [] => [x]
  | y :: rest => if y.length ≤ x.length then x :: y :: rest else y :: insertByLen x rest

/-- `sorted(tokens, key=len, reverse=True)`: stable sort, longest first.
(The Python source sorts a `set`, whose iteration order on ties is
unspecified; this models one admissible order.) -/
def sortByLenDesc : List PyStr → List PyStr
  | [] => []
  | x :: rest => insertByLen x (sortByLenDesc rest)

/-- The token loop at the end of `extract_from_text`: return the first
token that validates. -/
def firstValidTok (rawSet set4 : List PyStr) : List PyStr → Option PyStr
  | [] => none
  | tok :: rest =>
    match validate_code_in_list rawSet set4 (some tok) with
    | some v => some v
    | none => firstValidTok rawSet set4 rest

/-- `Location_Codes_Finder.extract_from_text`: tokenize the uppercased
text, prefer longer tokens, return the first valid location code. -/
def extract_from_text (rawSet set4 : List PyStr) : Option PyStr → Option PyStr
  | none => none
  | some t =>
    let u := pyUpper t
    firstValidTok rawSet set4 (sortByLenDesc (dedupFirst (alnumRuns u ++ findCodeTokens u)))

/-- The body of `_normalize_loc_code` after the `strip`/`upper`
normalisation. -/
def normLocCore (s : PyStr) : PyStr :=
  if s = [] then []
  else if pyIsDigit s then zfill 4 s
  else s

/-- `main_logic._normalize_loc_code`: pad purely numeric codes to 4 chars
(no truncation), keep alphanumerics as-is (uppercased, stripped); blank
and `None` give the empty string. -/
def pyNormalizeLocCode : Option PyStr → PyStr
  | none => []
  | some v => normLocCore (pyUpper (pyStrip v))

/-- `_normalize_loc_code` applied to a string cell (after `fillna("")`). -/
def normStr (s : PyStr) : PyStr := pyNormalizeLocCode (some s)

/-- Correspondence between the two absent encodings: `_normalize_loc_code`
returns the empty string where `format_code_4` returns `None`. -/
def optOfStr (s : PyStr) : Option PyStr := if s = [] then none else some s

/-- A string the regex `^\s*$` of `main_logic.clean_blank` matches. -/
def isBlankStr (s : PyStr) : Bool := s.all isSpaceChar

/-- `main_logic.clean_blank`: replace whitespace-only strings by a missing
value. -/
def cleanBlank (s : PyStr) : Option PyStr := if isBlankStr s then none else some s

/-- pandas `Series.fillna` with an optional replacement column. -/
def fillnaO {α : Type} (x y : Option α) : Option α :=
  match x with
  | some v => some v
  | none => y

/-- pandas `Series.fillna` with a literal default. -/
def fillnaD {α : Type} (x : Option α) (d : α) : α :=
  match x with
  | some v => v
  | none => d

/-- The final-code precedence chain of `main_logic.run_pipeline`
(lines 334-346) for one party: first non-blank among the text-extracted,
type-field and address-lookup candidates, else `NON-CINTAS`. -/
def finalCode (a b c : PyStr) : PyStr :=
  fillnaD (fillnaO (fillnaO (cleanBlank a) (cleanBlank b)) (cleanBlank c)) (pstr "NON-CINTAS")

/-- The address-sanity wipe of `main_logic.run_pipeline` (lines 265-287)
for one party's extracted code: wiped to blank when a code is present,
the name has no whole-word `CINTAS`/`MAT`, and the combined address is
not a master address. -/
def wipeCode (masterSet : List PyStr) (extracted name : PyStr) (combined : Option PyStr) : PyStr :=
  if pyStrip extracted ≠ [] ∧ containsCintasMat name = false ∧ combined.getD [] ∉ masterSet
  then []
  else extracted

/-- The per-party column state the wipe step acts on: the text-extracted
candidate (A) it may clear, and the type-field (B) and address-lookup (C)
candidate columns, which the wipe assignment never writes (in the source
they are in fact computed after the wipe). -/
structure WipeState where
  extracted : PyStr
  name : PyStr
  combinedAddr : Option PyStr
  typeFieldCand : PyStr
  addrLookupCand : PyStr

/-- The wipe assignment `accrual_sheet.loc[wipe_mask, extracted_col] = ""`:
a single-column update. -/
def applyWipe (masterSet : List PyStr) (st : WipeState) : WipeState :=
  { st with extracted := wipeCode masterSet st.extracted st.name st.combinedAddr }

/-- `matrix_mapping.SPECIAL_CODES`. -/
def SPECIAL_CODES : List PyStr := [pstr "0K35", pstr "024P", pstr "067N"]

/-- `matrix_mapping._first_nonblank`: the first value whose stripped form
is non-empty and not the string `NAN`/`NONE`. -/
def first_nonblank : List PyStr → PyStr
  | [] => []
  | v :: rest =>
    let s := pyStrip v
    if s ≠ [] ∧ pyUpper s ≠ pstr "NAN" ∧ pyUpper s ≠ pstr "NONE" then s
    else first_nonblank rest

/-- The row fields read by `MatrixMapper.determine_profit_center`. -/
structure MMRow where
  finalConsignorType : PyStr
  finalConsigneeType : PyStr
  finalConsignorCode : PyStr
  finalConsigneeCode : PyStr
  extractedConsigneeCode : PyStr
  addrLookupConsigneeCode : PyStr
  destTypeConsigneeCode : PyStr
  carrierName : Option PyStr

/-- The consignor type as normalised by `determine_profit_center`:
stripped and uppercased. -/
def consignorTypeNorm (row : MMRow) : PyStr := pyUpper (pyStrip row.finalConsignorType)

/-- The consignee type as normalised by `determine_profit_center`:
stripped, uppercased, with space characters removed (handles
`CA DC` vs `CADC`). -/
def consigneeTypeNorm (row : MMRow) : PyStr := removeSpaces (pyUpper (pyStrip row.finalConsigneeType))

/-- `MatrixMapper.determine_profit_center`.  The special type-mapping
table and the coding matrix come from `coding_matrix.py`, which is not in
the repository snapshot, so both tables are passed in as parameters; every
theorem about this function quantifies over them. -/
def determine_profit_center (stm cm : List ((PyStr × PyStr) × PyStr)) (row : MMRow) : PyStr :=
  if consignorTypeNorm row = pstr "MM" ∧ consigneeTypeNorm row = pstr "CADC" then pstr "037Q"
  else if row.finalConsigneeCode ∈ SPECIAL_CODES ∧
      (consigneeTypeNorm row = pstr "USDC" ∨ consigneeTypeNorm row = pstr "CADC") ∧
      consignorTypeNorm row ≠ pstr "LC" then
    row.finalConsigneeCode
  else
    let carrierHit :=
      match row.carrierName with
      | some cn => containsSub (pstr "omnitrans") (pyLower cn)
      | none => false
    let candidate := first_nonblank
      [row.extractedConsigneeCode, row.addrLookupConsigneeCode,
       row.destTypeConsigneeCode, row.finalConsignorCode]
    if carrierHit = true ∧ candidate ≠ [] then candidate
    else
      match pairGet stm (row.finalConsignorType, row.finalConsigneeType) with
      | some v => v
      | none =>
        match pairGet cm (row.finalConsignorType, row.finalConsigneeType) with
        | some dir =>
          if dir = pstr "ORIGIN" then row.finalConsignorCode
          else if dir = pstr "DESTINATION" then row.finalConsigneeCode
          else pstr "UNKNOWN"
        | none => pstr "UNKNOWN"

/-- The GL-account rule of `main_logic.run_pipeline` (lines 454-461):
621000 when the profit center contains `G59`, else 621000 when the final
consignee code equals the responsible party, else 621020. -/
def glAccount (profitCenterEJ finalConsigneeCode responsibleParty : PyStr) : Nat :=
  if containsSub (pstr "G59") profitCenterEJ = true then 621000
  else if finalConsigneeCode = responsibleParty then 621000
  else 621020

/-- Decimal digits of a `Nat`, as character codes. -/
def natToPy (n : Nat) : PyStr := (Nat.repr n).data.map Char.toNat

/-- Digit-string value (digits are codes 48-57). -/
def digitsVal (l : PyStr) : Nat := l.foldl (fun a d => a * 10 + (d - 48)) 0

/-- Splits a string matching `-?\d+(\.\d+)?` into sign, integer digits and
fraction digits; `none` when the regex does not match. -/
def splitNum (s : PyStr) : Option (Bool × PyStr × PyStr) :=
  let sign : Bool × PyStr :=
    match s with
    | c :: rest => if c = 45 then (true, rest) else (false, s)
    | [] => (false, [])
  let ip := sign.2.takeWhile isDigitChar
  let rest := sign.2.drop ip.length
  if ip = [] then none
  else
    match rest with
    | [] => some (sign.1, ip, [])
    | c :: fr => if c = 46 ∧ fr ≠ [] ∧ fr.all isDigitChar then some (sign.1, ip, fr) else none

/-- Round-half-even decision on the dropped fraction digits. -/
def roundUpDecision (dropped : PyStr) (keptParity : Nat) : Bool :=
  match dropped with
  | [] => false
  | d :: rest =>
    if 53 < d then true
    else if d < 53 then false
    else if rest.any (fun c => decide (c ≠ 48)) then true
    else decide (keptParity % 2 = 1)

/-- Renders a parsed decimal with exactly 5 fraction digits (rounding to
nearest, ties to even).  This models Python `f"{float(v):.5f}"` from
`main_logic._as_text_keep_zeros`; exact decimal rounding stands in for the
binary floating-point step, which has no shallow embedding. -/
def fmt5 (neg : Bool) (ip fr : PyStr) : PyStr :=
  let kept := digitsVal ip * 100000 + digitsVal (fr.take 5) * 10 ^ (5 - min fr.length 5)
  let total := if roundUpDecision (fr.drop 5) kept then kept + 1 else kept
  let fracDigits := natToPy (total % 100000)
  let body := natToPy (total / 100000) ++ (46 :: (List.replicate (5 - fracDigits.length) 48 ++ fracDigits))
  if neg then 45 :: body else body

/-- `main_logic._as_text_keep_zeros` on one cell (decimals=5): numeric-looking
strings are reformatted with 5 fixed decimals, everything else is kept. -/
def asText5 (v : PyStr) : PyStr :=
  let s := pyStrip v
  if s = [] then []
  else
    match splitNum s with
    | none => s
    | some (neg, ip, fr) => fmt5 neg ip fr

/-- `main_logic._force_excel_text` on one cell: after `fillna/strip`, both
regex branches return the value unchanged, so the map is just a strip. -/
def forceExcelText (v : PyStr) : PyStr := pyStrip v

/-- One row of the second master table (`Master Location Table`), with the
columns read by `run_pipeline`. -/
structure MasterLoc2Row where
  locCode : Option PyStr
  typeCode : Option PyStr
  profitCtr : Option PyStr
  costCenter : Option PyStr

/-- The `master_code_to_type` dict of `run_pipeline` (lines 390-395): keys
are the normalised, uppercased `Loc Code` values; a `Type Code` printing
as `NAN` becomes a missing value. -/
def buildTypeMap (rows : List MasterLoc2Row) : List (PyStr × Option PyStr) :=
  rows.foldl
    (fun d r =>
      dictInsert (pyUpper (pyNormalizeLocCode r.locCode))
        (if pyUpper (strOf r.typeCode) = pstr "NAN" then none else some (pyUpper (strOf r.typeCode)))
        d)
    []

/-- The type columns of `run_pipeline` (lines 397-402): map the uppercased
final code through `master_code_to_type`, defaulting to `NON-CINTAS`. -/
def typeLookup (m : List (PyStr × Option PyStr)) (code : PyStr) : PyStr :=
  match dictGet m (pyUpper code) with
  | some (some t) => t
  | some none => pstr "NON-CINTAS"
  | none => pstr "NON-CINTAS"

/-- The merge of `run_pipeline` (lines 419-425): the first master row whose
normalised `Loc Code` equals the responsible party. -/
def findMasterRow : List MasterLoc2Row → PyStr → Option MasterLoc2Row
  | [], _ => none
  | r :: rest, rp => if pyNormalizeLocCode r.locCode = rp then some r else findMasterRow rest rp

/-- Which input column an exception rule matches on. -/
inductive ExcField
  | consignorF
  | consigneeF
  | destAddressF

/-- One literal override of `EXCEPTION_RULES` in `run_pipeline`
(lines 355-367): a substring match on a column forcing a final code. -/
structure ExcRule where
  field : ExcField
  pattern : PyStr
  toConsignor : Bool
  value : PyStr

/-- `main_logic.EXCEPTION_RULES`, in declaration order. -/
def EXCEPTION_RULES : List ExcRule :=
  [⟨ExcField.destAddressF, pstr "6001 W", false, pstr "0021"⟩,
   ⟨ExcField.consigneeF, pstr "VALDEZ", false, pstr "0K35"⟩,
   ⟨ExcField.destAddressF, pstr "ATTN: GARDNER", false, pstr "0536"⟩,
   ⟨ExcField.consignorF, pstr "AVERITT TERMINAL", true, pstr "0004"⟩,
   ⟨ExcField.consignorF, pstr "COOPETRAJES", true, pstr "0896"⟩,
   ⟨ExcField.consigneeF, pstr "COOPETRAJES", false, pstr "0896"⟩,
   ⟨ExcField.consignorF, pstr "MATHESON", true, pstr "067N"⟩,
   ⟨ExcField.consignorF, pstr "EMPRESSA", true, pstr "0972"⟩,
   ⟨ExcField.consignorF, pstr "EMPRESA", true, pstr "0972"⟩,
   ⟨ExcField.consigneeF, pstr "EMPRESSA", false, pstr "0972"⟩,
   ⟨ExcField.consigneeF, pstr "EMPRESA", false, pstr "0972"⟩]

/-- The reference tables `run_pipeline` receives, plus the two fixed
type-pair tables imported from the missing `coding_matrix.py`, and whether
the input sheet has the org/dest type-code columns. -/
structure Refs where
  myLocRows : List MasterRow
  masterLocRows : List MasterLoc2Row
  codesList : List (Option PyStr)
  hasTypeCols : Bool
  specialTypeMappings : List ((PyStr × PyStr) × PyStr)
  codingMatrix : List ((PyStr × PyStr) × PyStr)

/-- One input record after `standardize_input_columns`: the canonical text
and address fields are strings (blank when missing), the optional
type-code cells, carrier name, and pre-existing `Profit Center` ground
truth stay optional. -/
structure BaseRecord where
  consignor : PyStr
  consignee : PyStr
  originAddress : PyStr
  originCity : PyStr
  originState : PyStr
  destAddress : PyStr
  destCity : PyStr
  destState : PyStr
  orgTypeCode : Option PyStr
  destTypeCode : Option PyStr
  carrierName : Option PyStr
  profitCenter : Option PyStr

/-- One output record of the pipeline: the untouched input fields plus
every derived column `run_pipeline` appends. -/
structure OutRecord where
  base : BaseRecord
  consignorCombinedAddress : Option PyStr
  consigneeCombinedAddress : Option PyStr
  extractedConsignorCode : PyStr
  extractedConsigneeCode : PyStr
  orgTypeConsignorCode : PyStr
  destTypeConsigneeCode : PyStr
  addrLookupConsignorCode : PyStr
  addrLookupConsigneeCode : PyStr
  finalConsignorCode : PyStr
  finalConsigneeCode : PyStr
  finalConsignorType : PyStr
  finalConsigneeType : PyStr
  responsibleParty : PyStr
  profitCenterEJ : PyStr
  costCenterEJ : PyStr
  accountEJ : PyStr
  automationAccuracy : Nat

/-- The exception loop of `run_pipeline` (lines 369-380) folded over the
final-code pair, in table order (later rules re-override earlier ones). -/
def applyExceptionRules (b : BaseRecord) (p : PyStr × PyStr) : PyStr × PyStr :=
  EXCEPTION_RULES.foldl
    (fun pr rule =>
      let src :=
        match rule.field with
        | ExcField.consignorF => b.consignor
        | ExcField.consigneeF => b.consignee
        | ExcField.destAddressF => b.destAddress
      if containsSub rule.pattern (pyUpper src) = true then
        if rule.toConsignor then (rule.value, pr.2) else (pr.1, rule.value)
      else pr)
    p

/-- `main_logic.run_pipeline` at the level of one record: every derived
column as a function of the input fields and the reference tables.  The
input fields are carried through unchanged, mirroring that the pipeline
only appends derived columns.  DataFrame-level bookkeeping (merge
suffixes, column reordering) has no record-level content and is outside
the model. -/
def pipelineRecord (refs : Refs) (b : BaseRecord) : OutRecord :=
  let rawSet := buildRawCodes (refs.codesList.map (fun c => some (pyNormalizeLocCode c)))
  let set4 := buildCodesSet4 rawSet
  let myLocN := refs.myLocRows.map (fun r => { r with locCode := some (pyNormalizeLocCode r.locCode) })
  let addrIdx := buildAddressToCode myLocN
  let masterCombined := myLocN.filterMap (fun r => combine_addr r.locAddress r.locCity r.locST)
  let comboCon := combine_addr (some b.originAddress) (some b.originCity) (some b.originState)
  let comboCee := combine_addr (some b.destAddress) (some b.destCity) (some b.destState)
  let extCon0 := pyNormalizeLocCode (extract_from_text rawSet set4 (some b.consignor))
  let extCee0 := pyNormalizeLocCode (extract_from_text rawSet set4 (some b.consignee))
  let extCon := wipeCode masterCombined extCon0 b.consignor comboCon
  let extCee := wipeCode masterCombined extCee0 b.consignee comboCee
  let orgCand :=
    if refs.hasTypeCols then pyNormalizeLocCode (validate_code_in_list rawSet set4 b.orgTypeCode)
    else []
  let destCand :=
    if refs.hasTypeCols then pyNormalizeLocCode (validate_code_in_list rawSet set4 b.destTypeCode)
    else []
  let addrCon := pyNormalizeLocCode (extract_from_address addrIdx comboCon)
  let addrCee0 := pyNormalizeLocCode (extract_from_address addrIdx comboCee)
  let combo := pyUpper (comboCee.getD [])
  let ctxt := pyStrip (pyUpper b.consignor)
  let isSuite := startsWith (pstr "SUITEMISSISSAUGAON") combo
  let addrCee1 :=
    if isSuite = true ∧ startsWithAny ctxt
        [pstr "LNK", pstr "AMERICAN METAL CRAFTERS", pstr "RADIANS", pstr "EVER READY"] = true
    then pstr "097H" else addrCee0
  let addrCee2 :=
    if isSuite = true ∧ startsWithAny ctxt [pstr "VECTAIR", pstr "ZEP"] = true
    then pstr "067N" else addrCee1
  let addrCee :=
    if isSuite = true ∧ startsWithAny ctxt [pstr "CHEMFREE", pstr "BERRY GLOBAL"] = true
    then pstr "0897" else addrCee2
  let fCon0 := normStr (finalCode extCon orgCand addrCon)
  let fCee0 := normStr (finalCode extCee destCand addrCee)
  let pairFinal := applyExceptionRules b (fCon0, fCee0)
  let fCon := normStr pairFinal.1
  let fCee := normStr pairFinal.2
  let typeMap := buildTypeMap refs.masterLocRows
  let tCon := typeLookup typeMap fCon
  let tCee := typeLookup typeMap fCee
  let rp := determine_profit_center refs.specialTypeMappings refs.codingMatrix
    { finalConsignorType := tCon, finalConsigneeType := tCee,
      finalConsignorCode := fCon, finalConsigneeCode := fCee,
      extractedConsigneeCode := extCee, addrLookupConsigneeCode := addrCee,
      destTypeConsigneeCode := destCand, carrierName := b.carrierName }
  let mrow := findMasterRow refs.masterLocRows rp
  let profitA :=
    match mrow with
    | some r => pyStrip (r.profitCtr.getD [])
    | none => []
  let costA :=
    match mrow with
    | some r => forceExcelText (asText5 (r.costCenter.getD []))
    | none => []
  let profitB := pyStrip profitA
  let costB := forceExcelText (asText5 costA)
  let rpNorm := pyStrip (pyUpper rp)
  let blankIt := rpNorm = pstr "THIRD PARTY" ∨ rpNorm = pstr "NON-CINTAS"
  let profitEJ := if blankIt then [] else profitB
  let costEJ := if blankIt then [] else costB
  let acctS := forceExcelText (natToPy (glAccount profitEJ fCee rp))
  let acc :=
    match b.profitCenter with
    | some pc => if pc = profitEJ then 1 else 0
    | none => 0
  { base := b,
    consignorCombinedAddress := comboCon,
    consigneeCombinedAddress := comboCee,
    extractedConsignorCode := extCon,
    extractedConsigneeCode := extCee,
    orgTypeConsignorCode := orgCand,
    destTypeConsigneeCode := destCand,
    addrLookupConsignorCode := addrCon,
    addrLookupConsigneeCode := addrCee,
    finalConsignorCode := fCon,
    finalConsigneeCode := fCee,
    finalConsignorType := tCon,
    finalConsigneeType := tCee,
    responsibleParty := rp,
    profitCenterEJ := profitEJ,
    costCenterEJ := costEJ,
    accountEJ := acctS,
    automationAccuracy := acc }

/-- A concrete master-table row (used to exhibit duplicate-key behaviour
of the address index). -/
def mr3a : MasterRow :=
  { locAddress := some (pstr "100 Main St"), locCity := some (pstr "Springfield"),
    locST := some (pstr "IL"), locCode := some (pstr "0001") }

/-- A second master-table row with the same combined address as `mr3a` but
a different location code. -/
def mr3b : MasterRow :=
  { locAddress := some (pstr "100 Main St"), locCity := some (pstr "Springfield"),
    locST := some (pstr "IL"), locCode := some (pstr "0002") }

/-! ## Helper lemmas on the string primitives -/

theorem upperChar_idem (n : Nat) : upperChar (upperChar n) = upperChar n := by
  unfold upperChar
  split <;> (try split) <;> omega

theorem isSpace_upperChar (n : Nat) : isSpaceChar (upperChar n) = isSpaceChar n := by
  unfold upperChar isSpaceChar
  split <;> [rw [decide_eq_decide]; rfl]
  omega

theorem pyUpper_idem (s : PyStr) : pyUpper (pyUpper s) = pyUpper s := by
  induction s with
  | nil => rfl
  | cons a t ih =>
    simp only [pyUpper, List.map_cons] at ih ⊢
    rw [upperChar_idem, ih]

theorem dropWhile_map (f : Nat → Nat) (hp : ∀ a, isSpaceChar (f a) = isSpaceChar a)
    (l : PyStr) :
    List.dropWhile isSpaceChar (l.map f) = (List.dropWhile isSpaceChar l).map f := by
  induction l with
  | nil => rfl
  | cons a t ih =>
    simp only [List.map_cons, List.dropWhile_cons, hp a]
    cases hpa : isSpaceChar a <;> simp [hpa, ih]

theorem pyStrip_upper_comm (s : PyStr) : pyStrip (pyUpper s) = pyUpper (pyStrip s) := by
  simp only [pyStrip, pyUpper, List.rdropWhile]
  rw [dropWhile_map upperChar isSpace_upperChar s]
  rw [show (List.map upperChar (List.dropWhile isSpaceChar s)).reverse
      = List.map upperChar (List.dropWhile isSpaceChar s).reverse from by rw [List.map_reverse]]
  rw [dropWhile_map upperChar isSpace_upperChar]
  rw [List.map_reverse]

theorem dropWhile_rdropWhile_dropWhile (p : Nat → Bool) (l : PyStr) :
    List.dropWhile p (List.rdropWhile p (List.dropWhile p l)) =
      List.rdropWhile p (List.dropWhile p l) := by
  rw [List.dropWhile_eq_self_iff]
  intro hl
  obtain ⟨r, hr⟩ := List.rdropWhile_prefix p (List.dropWhile p l)
  have hlt : 0 < (List.dropWhile p l).length := by
    rw [← hr, List.length_append]
    exact Nat.lt_of_lt_of_le hl (Nat.le_add_right _ _)
  have hq : (List.rdropWhile p (List.dropWhile p l))[0]? = (List.dropWhile p l)[0]? := by
    conv_rhs => rw [← hr]
    exact (List.getElem?_append_left hl).symm
  have hg : (List.rdropWhile p (List.dropWhile p l)).get ⟨0, hl⟩ =
      (List.dropWhile p l).get ⟨0, hlt⟩ := by
    have h1 := List.getElem?_eq_getElem (l := List.rdropWhile p (List.dropWhile p l)) hl
    have h2 := List.getElem?_eq_getElem (l := List.dropWhile p l) hlt
    rw [List.get_eq_getElem, List.get_eq_getElem]
    rw [h1, h2] at hq
    exact Option.some.inj hq
  rw [hg]
  exact List.dropWhile_get_zero_not p l hlt

theorem pyStrip_idem (s : PyStr) : pyStrip (pyStrip s) = pyStrip s := by
  simp only [pyStrip]
  rw [dropWhile_rdropWhile_dropWhile]
  exact List.rdropWhile_idempotent isSpaceChar (List.dropWhile isSpaceChar s)

theorem normUpperStrip (s : PyStr) :
    pyUpper (pyStrip (pyUpper (pyStrip s))) = pyUpper (pyStrip s) := by
  rw [pyStrip_upper_comm, pyStrip_idem, pyUpper_idem]

theorem format_code_4_norm (s : PyStr) :
    format_code_4 (some (pyUpper (pyStrip s))) = format_code_4 (some s) := by
  simp only [format_code_4]
  rw [normUpperStrip]

theorem dictGet_dictInsert {α : Type} (k : PyStr) (v : α) (d : List (PyStr × α)) :
    dictGet (dictInsert k v d) k = some v := by
  induction d with
  | nil => simp [dictInsert, dictGet]
  | cons p rest ih =>
    obtain ⟨k1, v1⟩ := p
    by_cases h : k1 = k
    · simp [dictInsert, dictGet, h]
    · simp [dictInsert, dictGet, h, ih]

theorem pyIsDigit_ne_nil (s : PyStr) (h : pyIsDigit s = true) : s ≠ [] := by
  intro he
  subst he
  simp [pyIsDigit] at h

theorem zfill_digit (s : PyStr) (h : pyIsDigit s = true) : zfill 4 s = padLeft 4 s := by
  cases s with
  | nil => simp [pyIsDigit] at h
  | cons c rest =>
    have hc : isDigitChar c = true := by
      simp only [pyIsDigit, List.isEmpty_cons, Bool.not_false, Bool.true_and,
        List.all_cons, Bool.and_eq_true] at h
      exact h.1
    have hc2 : ¬(c = 43 ∨ c = 45) := by
      simp only [isDigitChar, decide_eq_true_eq] at hc
      omega
    simp only [zfill, padLeft, List.length_cons]
    by_cases hlen : 4 ≤ rest.length + 1
    · rw [if_pos hlen]
      have h0 : 4 - (rest.length + 1) = 0 := by omega
      rw [h0]
      rfl
    · rw [if_neg hlen, if_neg hc2]

theorem zfill_of_ge (s : PyStr) (h : 4 ≤ s.length) : zfill 4 s = s := by
  cases s with
  | nil => simp at h
  | cons c rest =>
    simp only [zfill]
    rw [if_pos (show 4 ≤ rest.length + 1 by simpa using h)]

theorem zfill_len_of_le (s : PyStr) (h : s.length ≤ 4) : (zfill 4 s).length = 4 := by
  cases s with
  | nil => simp [zfill]
  | cons c rest =>
    simp only [List.length_cons] at h
    simp only [zfill]
    by_cases h4 : 4 ≤ rest.length + 1
    · rw [if_pos h4]
      simp only [List.length_cons]
      omega
    · rw [if_neg h4]
      by_cases hc : c = 43 ∨ c = 45
      · rw [if_pos hc]
        simp only [List.length_cons, List.length_append, List.length_replicate]
        omega
      · rw [if_neg hc]
        simp only [List.length_cons, List.length_append, List.length_replicate]
        omega

theorem lastN_of_len4 (l : PyStr) (h : l.length = 4) : lastN 4 l = l := by
  unfold lastN
  rw [h]
  simp

theorem length_pos_ne_nil (l : PyStr) (h : l.length = 4) : l ≠ [] := by
  intro he
  subst he
  simp at h


/-! ## Claim theorems -/

/-- C1: for every record and each party independently, the final location
code produced by the precedence chain equals the first present (non-blank)
value among the post-wipe text-extracted candidate A, the validated
type-field candidate B, and the address-lookup candidate C, in that order;
when all three are blank it is the literal sentinel NON-CINTAS.
(`run_pipeline` applies `finalCode` to the consignor and consignee
candidate triples independently.) -/
theorem c1_final_code_first_present (a b c : PyStr) :
    (isBlankStr a = false → finalCode a b c = a) ∧
    (isBlankStr a = true → isBlankStr b = false → finalCode a b c = b) ∧
    (isBlankStr a = true → isBlankStr b = true → isBlankStr c = false → finalCode a b c = c) ∧
    (isBlankStr a = true → isBlankStr b = true → isBlankStr c = true →
      finalCode a b c = pstr "NON-CINTAS") := by
  constructor
  · intro h1
    simp [finalCode, cleanBlank, fillnaO, fillnaD, h1]
  constructor
  · intro h1 h2
    simp [finalCode, cleanBlank, fillnaO, fillnaD, h1, h2]
  constructor
  · intro h1 h2 h3
    simp [finalCode, cleanBlank, fillnaO, fillnaD, h1, h2, h3]
  · intro h1 h2 h3
    simp [finalCode, cleanBlank, fillnaO, fillnaD, h1, h2, h3]

/-- Witness for C1: with a blank candidate A, the final code falls through
to candidate B at a concrete input. -/
theorem c1_witness : finalCode (pstr " ") (pstr "011K") (pstr "0021") = pstr "011K" :=
  (c1_final_code_first_present (pstr " ") (pstr "011K") (pstr "0021")).2.1 (by decide) (by decide)

/-- C2: the Code Normalizer maps None/blank input to absent; an all-digit
input to the rightmost 4 characters of its left-zero-padded form; every
other input to its trimmed, uppercased, zero-filled form with no
truncation (unchanged when already at least 4 characters long); together
with the normative examples. -/
theorem c2_format_code_4_normalizer :
    format_code_4 none = none ∧
    (∀ s : PyStr, pyStrip s = [] → format_code_4 (some s) = none) ∧
    (∀ s : PyStr, pyIsDigit (pyUpper (pyStrip s)) = true →
      format_code_4 (some s) = some (lastN 4 (padLeft 4 (pyUpper (pyStrip s))))) ∧
    (∀ s : PyStr, pyUpper (pyStrip s) ≠ [] → pyIsDigit (pyUpper (pyStrip s)) = false →
      format_code_4 (some s) = some (zfill 4 (pyUpper (pyStrip s))) ∧
      (4 ≤ (pyUpper (pyStrip s)).length → format_code_4 (some s) = some (pyUpper (pyStrip s)))) ∧
    format_code_4 (some (pstr "95")) = some (pstr "0095") ∧
    format_code_4 (some (pstr "0000095")) = some (pstr "0095") ∧
    format_code_4 (some (pstr "11K")) = some (pstr "011K") ∧
    format_code_4 (some (pstr "")) = none := by
  refine ⟨rfl, ?_, ?_, ?_, by decide, by decide, by decide, by decide⟩
  · intro s h
    simp [format_code_4, format4core, h, pyUpper]
  · intro s h
    have hne := pyIsDigit_ne_nil _ h
    rw [show format_code_4 (some s) = format4core (pyUpper (pyStrip s)) from rfl]
    unfold format4core
    rw [if_neg hne, if_pos h, zfill_digit _ h]
  · intro s hne h
    constructor
    · rw [show format_code_4 (some s) = format4core (pyUpper (pyStrip s)) from rfl]
      unfold format4core
      rw [if_neg hne, if_neg (by simp [h])]
    · intro h4
      rw [show format_code_4 (some s) = format4core (pyUpper (pyStrip s)) from rfl]
      unfold format4core
      rw [if_neg hne, if_neg (by simp [h]), zfill_of_ge _ h4]

/-- Witness for C2: the non-digit branch evaluated at a concrete input. -/
theorem c2_witness :
    format_code_4 (some (pstr "11K")) = some (zfill 4 (pyUpper (pyStrip (pstr "11K")))) :=
  (c2_format_code_4_normalizer.2.2.2.1 (pstr "11K") (by decide) (by decide)).1

/-- C3 counterexample: two master rows with the same combined-address key
and different codes; the index maps the key to the LATER row's code, so
first-write-wins (the claim as stated) is false. -/
theorem c3_counterexample :
    dictGet (buildAddressToCode [mr3a, mr3b]) (pstr "100SPRINGFIELDIL") = some (pstr "0002") ∧
    dictGet (buildAddressToCode [mr3a, mr3b]) (pstr "100SPRINGFIELDIL") ≠ some (pstr "0001") := by
  decide

/-- C3 (amended): duplicate combined-address keys resolve LAST-write-wins:
whatever rows precede it, a final row contributing key `k` with code `c`
makes the index map `k` to `c`. -/
theorem c3_last_write_wins (rows : List MasterRow) (r : MasterRow) (k c : PyStr)
    (h : rowEntry r = some (k, c)) :
    dictGet (buildAddressToCode (rows ++ [r])) k = some c := by
  unfold buildAddressToCode
  rw [List.foldl_append]
  simp only [List.foldl_cons, List.foldl_nil, h]
  exact dictGet_dictInsert k c _

/-- Witness for C3: the amended theorem applied to the concrete duplicate
rows. -/
theorem c3_witness :
    dictGet (buildAddressToCode ([mr3a] ++ [mr3b])) (pstr "100SPRINGFIELDIL") =
      some (pstr "0002") :=
  c3_last_write_wins [mr3a] mr3b (pstr "100SPRINGFIELDIL") (pstr "0002") (by decide)

/-- C4: when the text-extracted candidate is present, the party name has no
whole-word CINTAS/MAT, and the combined address is not a master address,
the candidate is wiped; and for ALL inputs the wipe leaves the type-field
and address-lookup candidate columns unchanged. -/
theorem c4_wipe_rule (masterSet : List PyStr) (st : WipeState) :
    (pyStrip st.extracted ≠ [] → containsCintasMat st.name = false →
      st.combinedAddr.getD [] ∉ masterSet → (applyWipe masterSet st).extracted = []) ∧
    (applyWipe masterSet st).typeFieldCand = st.typeFieldCand ∧
    (applyWipe masterSet st).addrLookupCand = st.addrLookupCand := by
  refine ⟨fun h1 h2 h3 => ?_, rfl, rfl⟩
  show wipeCode masterSet st.extracted st.name st.combinedAddr = []
  unfold wipeCode
  rw [if_pos ⟨h1, h2, h3⟩]

/-- Witness for C4: a concrete non-internal party at an unknown address has
its extracted code wiped. -/
theorem c4_witness :
    (applyWipe [pstr "K1"]
      ⟨pstr "0095", pstr "ACME LOGISTICS", some (pstr "9XELSEWHERETX"),
        pstr "0BBB", pstr "0CCC"⟩).extracted = [] :=
  (c4_wipe_rule [pstr "K1"]
      ⟨pstr "0095", pstr "ACME LOGISTICS", some (pstr "9XELSEWHERETX"),
        pstr "0BBB", pstr "0CCC"⟩).1 (by decide) (by decide) (by decide)

/-- C5: when the normalised consignor type is MM and the space-stripped,
uppercased consignee type is CADC, the responsible party is the fixed
override 037Q, for every state of the other fields and both type-pair
tables (the rule is evaluated first and wins). -/
theorem c5_mm_cadc_override (stm cm : List ((PyStr × PyStr) × PyStr)) (row : MMRow)
    (h1 : consignorTypeNorm row = pstr "MM") (h2 : consigneeTypeNorm row = pstr "CADC") :
    determine_profit_center stm cm row = pstr "037Q" := by
  unfold determine_profit_center
  rw [if_pos ⟨h1, h2⟩]

/-- Witness for C5: the override fires on a concrete row even with
competing table entries, a special consignee code and a carrier match. -/
theorem c5_witness :
    determine_profit_center
      [((pstr "MM", pstr "CA DC"), pstr "9999")]
      [((pstr "MM", pstr "CA DC"), pstr "ORIGIN")]
      { finalConsignorType := pstr " mm ", finalConsigneeType := pstr "ca dc",
        finalConsignorCode := pstr "0001", finalConsigneeCode := pstr "0K35",
        extractedConsigneeCode := pstr "", addrLookupConsigneeCode := pstr "",
        destTypeConsigneeCode := pstr "", carrierName := some (pstr "Omnitrans") } =
      pstr "037Q" :=
  c5_mm_cadc_override _ _ _ (by decide) (by decide)

/-- C6: when the MM/CADC override does not match, the final consignee code
is one of the special codes, the normalised consignee type is USDC or
CADC, and the normalised consignor type is not LC, the responsible party
is the final consignee code, for both type-pair tables arbitrary. -/
theorem c6_special_codes (stm cm : List ((PyStr × PyStr) × PyStr)) (row : MMRow)
    (h0 : ¬(consignorTypeNorm row = pstr "MM" ∧ consigneeTypeNorm row = pstr "CADC"))
    (h1 : row.finalConsigneeCode ∈ SPECIAL_CODES)
    (h2 : consigneeTypeNorm row = pstr "USDC" ∨ consigneeTypeNorm row = pstr "CADC")
    (h3 : consignorTypeNorm row ≠ pstr "LC") :
    determine_profit_center stm cm row = row.finalConsigneeCode := by
  unfold determine_profit_center
  rw [if_neg h0, if_pos ⟨h1, h2, h3⟩]

/-- Witness for C6: the special-code rule fires on a concrete row. -/
theorem c6_witness :
    determine_profit_center
      [((pstr "MM", pstr "US DC"), pstr "9999")]
      [((pstr "MM", pstr "US DC"), pstr "ORIGIN")]
      { finalConsignorType := pstr "MM", finalConsigneeType := pstr "US DC",
        finalConsignorCode := pstr "0001", finalConsigneeCode := pstr "0K35",
        extractedConsigneeCode := pstr "", addrLookupConsigneeCode := pstr "",
        destTypeConsigneeCode := pstr "", carrierName := none } =
      pstr "0K35" :=
  c6_special_codes _ _ _ (by decide) (by decide) (by decide) (by decide)

/-- C7: the GL account is 621000 whenever the profit-center string contains
G59; otherwise 621000 exactly when the final consignee code equals the
responsible party, else 621020; in particular G59 forces 621000 even when
the codes differ. -/
theorem c7_gl_account (p c r : PyStr) :
    (containsSub (pstr "G59") p = true → glAccount p c r = 621000) ∧
    (containsSub (pstr "G59") p = false → c = r → glAccount p c r = 621000) ∧
    (containsSub (pstr "G59") p = false → c ≠ r → glAccount p c r = 621020) ∧
    (containsSub (pstr "G59") p = true → c ≠ r → glAccount p c r = 621000) := by
  refine ⟨fun h => ?_, fun h he => ?_, fun h hn => ?_, fun h _ => ?_⟩
  · unfold glAccount
    rw [if_pos h]
  · unfold glAccount
    rw [if_neg (by simp [h]), if_pos he]
  · unfold glAccount
    rw [if_neg (by simp [h]), if_neg hn]
  · unfold glAccount
    rw [if_pos h]

/-- Witness for C7: a G59 profit center yields 621000 at a concrete input
where the consignee code differs from the responsible party. -/
theorem c7_witness : glAccount (pstr "G5920") (pstr "0021") (pstr "0095") = 621000 :=
  (c7_gl_account (pstr "G5920") (pstr "0021") (pstr "0095")).2.2.2 (by decide) (by decide)

/-- C8 counterexample: the pipeline re-normalizer and the Code Normalizer
are different functions: on the long digit input 0000095 the former keeps
all 7 digits while the latter truncates to 0095, and on the short input
11K the former does not pad while the latter returns 011K. -/
theorem c8_counterexample :
    pyNormalizeLocCode (some (pstr "0000095")) = pstr "0000095" ∧
    format_code_4 (some (pstr "0000095")) = some (pstr "0095") ∧
    pstr "0000095" ≠ pstr "0095" ∧
    pyNormalizeLocCode (some (pstr "11K")) = pstr "11K" ∧
    format_code_4 (some (pstr "11K")) = some (pstr "011K") ∧
    pstr "11K" ≠ pstr "011K" := by
  decide

/-- C8 (amended): identifying the empty string with absent, the two
normalizers agree exactly on blank inputs, all-digit inputs of trimmed
length at most 4, and non-digit inputs of trimmed length at least 4;
`_normalize_loc_code` neither truncates long digit strings nor pads short
alphanumerics. -/
theorem c8_normalizer_agreement (s : PyStr) :
    optOfStr (pyNormalizeLocCode none) = format_code_4 none ∧
    (pyUpper (pyStrip s) = [] →
      optOfStr (pyNormalizeLocCode (some s)) = format_code_4 (some s)) ∧
    (pyIsDigit (pyUpper (pyStrip s)) = true → (pyUpper (pyStrip s)).length ≤ 4 →
      optOfStr (pyNormalizeLocCode (some s)) = format_code_4 (some s)) ∧
    (pyIsDigit (pyUpper (pyStrip s)) = false → 4 ≤ (pyUpper (pyStrip s)).length →
      optOfStr (pyNormalizeLocCode (some s)) = format_code_4 (some s)) := by
  refine ⟨rfl, fun h => ?_, fun hd hl => ?_, fun hd hl => ?_⟩
  · rw [show pyNormalizeLocCode (some s) = normLocCore (pyUpper (pyStrip s)) from rfl,
      show format_code_4 (some s) = format4core (pyUpper (pyStrip s)) from rfl, h]
    rfl
  · have hne := pyIsDigit_ne_nil _ hd
    rw [show pyNormalizeLocCode (some s) = normLocCore (pyUpper (pyStrip s)) from rfl,
      show format_code_4 (some s) = format4core (pyUpper (pyStrip s)) from rfl]
    unfold normLocCore format4core
    rw [if_neg hne, if_neg hne, if_pos hd, if_pos hd]
    have hlen := zfill_len_of_le _ hl
    rw [lastN_of_len4 _ hlen]
    unfold optOfStr
    rw [if_neg (length_pos_ne_nil _ hlen)]
  · have hne : pyUpper (pyStrip s) ≠ [] := by
      intro he
      rw [he] at hl
      simp at hl
    rw [show pyNormalizeLocCode (some s) = normLocCore (pyUpper (pyStrip s)) from rfl,
      show format_code_4 (some s) = format4core (pyUpper (pyStrip s)) from rfl]
    unfold normLocCore format4core
    rw [if_neg hne, if_neg hne, if_neg (by simp [hd]), if_neg (by simp [hd]), zfill_of_ge _ hl]
    unfold optOfStr
    rw [if_neg hne]

/-- Witness for C8: the agreement theorem at a concrete long alphanumeric
input. -/
theorem c8_witness :
    optOfStr (pyNormalizeLocCode (some (pstr "ABCDE"))) = format_code_4 (some (pstr "ABCDE")) :=
  (c8_normalizer_agreement (pstr "ABCDE")).2.2.2 (by decide) (by decide)

/-- The record-level pipeline never modifies the input fields. -/
theorem pipelineRecord_base (refs : Refs) (b : BaseRecord) :
    (pipelineRecord refs b).base = b := rfl

/-- C9: applying the record-level pipeline to the input part of its own
output reproduces the output exactly: every derived column is a function
of the unchanged input fields and the reference tables, so the pipeline is
idempotent at the record level. -/
theorem c9_pipeline_idempotent (refs : Refs) (b : BaseRecord) :
    pipelineRecord refs ((pipelineRecord refs b).base) = pipelineRecord refs b :=
  congrArg (pipelineRecord refs) (pipelineRecord_base refs b)

/-- C10: against indexes built by the constructor, the validator returns
exactly the normalized form when that form is in the normalized set and
absent otherwise: the raw-set fallback branch never changes the result,
because the normalized set contains the image of every raw-set member. -/
theorem c10_raw_fallback_redundant (codes : List (Option PyStr)) (code : Option PyStr) :
    validate_code_in_list (buildRawCodes codes) (buildCodesSet4 (buildRawCodes codes)) code =
      (match format_code_4 code with
       | none => none
       | some f => if f ∈ buildCodesSet4 (buildRawCodes codes) then some f else none) := by
  cases code with
  | none => rfl
  | some s =>
    unfold validate_code_in_list
    cases hf : format_code_4 (some s) with
    | none => simp [hf]
    | some f =>
      simp only [hf]
      by_cases hmem : f ∈ buildCodesSet4 (buildRawCodes codes)
      · simp only [if_pos hmem]
      · simp only [if_neg hmem]
        by_cases hraw : pyUpper (pyStrip s) ∈ buildRawCodes codes
        · exact absurd
            (by
              unfold buildCodesSet4
              exact List.mem_filterMap.mpr
                ⟨pyUpper (pyStrip s), hraw, by rw [format_code_4_norm]; exact hf⟩)
            hmem
        · rw [if_neg hraw]
